import Mathlib

/-!
Verification of `analyze_instagram.py`: a shallow embedding of the
snapshot locator, archive unpacker, relationship loaders and diff
reporter, together with proofs of the specified properties.

Machine-independent conventions of the embedding:
* file-system directory listings are explicit lists of named entries,
  given in the order `Path.glob` yields them (the spec calls this the
  parse order);
* Python `set` values are embedded as duplicate-free accumulation lists,
  with the set operations (`add`, difference, `len`, `sorted`) applied
  through explicit helpers;
* Python exceptions are an explicit error type `Exc` carried in
  `Except`; the builtin `FileNotFoundError` and the module's own
  `SnapshotNotFound` are separate constructors, as are JSON decode
  errors and type errors.
-/

/-- Characters of a string, split on a single separator character.
Models Python `str.split("-")` for the one-character separator used by
the source (`"a--b".split("-") == ["a","","b"]`, `"".split("-") == [""]`). -/
def splitOnChar (sep : Char) : List Char → List (List Char)
  | [] => [[]]
  | c :: cs =>
    let r := splitOnChar sep cs
    if c = sep then [] :: r
    else
      match r with
      | [] => [[c]]
      | h :: t => (c :: h) :: t

/-- Embedding of `name.split("-")` from the source, as a structural function on the
underlying character list (so that the kernel can evaluate it). -/
def splitDash (s : String) : List String :=
  (splitOnChar '-' s.data).map (fun l => String.mk l)

/-- Prefix test on strings, structural on the character lists.  Models
both `str.startswith` and the fixed-prefix glob patterns
`instagram-*` / `instagram-<account>-*` used by the source (the account
names considered contain no glob metacharacters). -/
def strStartsWith (s pat : String) : Bool :=
  List.isPrefixOf pat.data s.data

/-- Decimal digit value of an ASCII digit character. -/
def digitVal (c : Char) : Nat := c.toNat - 48

/-- Parse a non-empty all-ASCII-digit character list as a natural
number; models the `int` conversion applied by `strptime` to a
`\d`-matched group (non-ASCII digits are outside this model's scope). -/
def parseNat (l : List Char) : Option Nat :=
  if l.isEmpty then none
  else if l.all (fun c => c.isDigit) then
    some (l.foldl (fun a c => a * 10 + digitVal c) 0)
  else none

/-- A calendar date, the embedding of `datetime.date`. -/
structure Date where
  year : Nat
  month : Nat
  day : Nat
deriving DecidableEq, Repr

/-- Embedding of the `datetime.date` ordering (`x <= y`): lexicographic on
(year, month, day). -/
def dateLe (x y : Date) : Bool :=
  decide (x.year < y.year ∨ (x.year = y.year ∧
    (x.month < y.month ∨ (x.month = y.month ∧ x.day ≤ y.day))))

/-- Strict `datetime.date` ordering (`x < y`). -/
def dateLt (x y : Date) : Bool :=
  decide (x.year < y.year ∨ (x.year = y.year ∧
    (x.month < y.month ∨ (x.month = y.month ∧ x.day < y.day))))

/-- Length of a month, with the Gregorian leap-year rule used by
`datetime` for validating a parsed day-of-month. -/
def daysInMonth (y m : Nat) : Nat :=
  if m = 2 then
    if (y % 4 = 0 ∧ y % 100 ≠ 0) ∨ y % 400 = 0 then 29 else 28
  else if m = 4 ∨ m = 6 ∨ m = 9 ∨ m = 11 then 30 else 31

/-- Embedding of `parse_date` from the source:
`datetime.strptime(value, "%Y-%m-%d").date()`.  `strptime` matches `%Y`
against exactly four digits, and `%m` / `%d` against one or two digits
(with two-digit values `01`–`12` resp. `01`–`31`; `00` never matches),
requiring the whole string to be consumed; the `datetime` constructor
then validates `1 <= year` and the day against the month length.
Failure (`ValueError`) is `none`. -/
def parse_date (s : String) : Option Date :=
  match splitDash s with
  | [ys, ms, ds] =>
    match parseNat ys.data, parseNat ms.data, parseNat ds.data with
    | some y, some m, some d =>
      if ys.data.length = 4 ∧ 1 ≤ y ∧
         (ms.data.length = 1 ∨ ms.data.length = 2) ∧ 1 ≤ m ∧ m ≤ 12 ∧
         (ds.data.length = 1 ∨ ds.data.length = 2) ∧ 1 ≤ d ∧
         d ≤ daysInMonth y m
      then some ⟨y, m, d⟩ else none
    | _, _, _ => none
  | _ => none

/-- Zero-padded two-digit decimal, as in `date.isoformat`. -/
def pad2 (n : Nat) : String :=
  if n < 10 then "0" ++ Nat.repr n else Nat.repr n

/-- Zero-padded four-digit decimal, as in `date.isoformat`. -/
def pad4 (n : Nat) : String :=
  if n < 10 then "000" ++ Nat.repr n
  else if n < 100 then "00" ++ Nat.repr n
  else if n < 1000 then "0" ++ Nat.repr n
  else Nat.repr n

/-- Embedding of `date.isoformat()` / `str(date)`: `YYYY-MM-DD`. -/
def isoformat (d : Date) : String :=
  pad4 d.year ++ "-" ++ pad2 d.month ++ "-" ++ pad2 d.day

/-- One entry of the data directory, as seen by `DATA_DIR.glob`:
its name and whether it is a directory. -/
structure FSEntry where
  name : String
  isDir : Bool
deriving DecidableEq, Repr

/-- The account name extracted from one directory name by
`list_accounts` (lines 21–27 of the source): split on `-`, require at
least 6 components with the fixed leading `instagram` token, and join
components `1 .. len-5` (everything between `instagram` and the
trailing `YYYY-MM-DD-suffix`). -/
def accountOf (name : String) : Option String :=
  let parts := splitDash name
  if parts.length < 6 then none
  else if parts.head? ≠ some "instagram" then none
  else
    let account_parts := (parts.drop 1).take (parts.length - 5)
    if account_parts.isEmpty then none
    else some (String.intercalate "-" account_parts)

/-- Embedding of `list_accounts()` over an explicit directory listing: scan
`instagram-*` directories, collect the parsed account names into a set,
return them sorted.  The set-then-`sorted` of the source is embedded as
dedup (first occurrences) followed by insertion sort, which yields the
same sorted duplicate-free list. -/
def list_accounts (listing : List FSEntry) : List String :=
  let names := (listing.filter
    (fun e => e.isDir && strStartsWith e.name "instagram-")).map (fun e => e.name)
  List.insertionSort (· ≤ ·) (names.filterMap accountOf).dedup

/-- The pre-sort body of `list_snapshots` (lines 57–68): directories
matching `instagram-<account>-*`, with at least 6 dash components,
whose components 2–4 joined by `-` parse as a date; pairs
`(date, directory name)` in scan order. -/
def snapshotCandidates (listing : List FSEntry) (account : String) :
    List (Date × String) :=
  let pat := "instagram-" ++ account ++ "-"
  ((listing.filter (fun e => e.isDir && strStartsWith e.name pat)).map
      (fun e => e.name)).filterMap (fun name =>
    let parts := splitDash name
    if parts.length < 6 then none
    else
      match parse_date (String.intercalate "-" ((parts.drop 2).take 3)) with
      | some snapshot_date => some (snapshot_date, name)
      | none => none)

/-- The ordering used by `sorted(snapshots, key=lambda item: item[0])`:
compare only the date component. -/
def snapLE (p q : Date × String) : Prop := dateLe p.1 q.1 = true

instance : DecidableRel snapLE := fun p q => by
  unfold snapLE; infer_instance

instance : IsTotal (Date × String) snapLE := ⟨fun p q => by
  unfold snapLE dateLe
  simp only [decide_eq_true_eq]
  omega⟩

instance : IsTrans (Date × String) snapLE := ⟨fun p q r hpq hqr => by
  unfold snapLE dateLe at *
  simp only [decide_eq_true_eq] at *
  omega⟩

/-- Embedding of `list_snapshots(account)`: the candidates, stably sorted ascending
by date (Python's `sorted` is stable, as is insertion sort). -/
def list_snapshots (listing : List FSEntry) (account : String) :
    List (Date × String) :=
  List.insertionSort snapLE (snapshotCandidates listing account)

/-- The embedding of the Python exception values relevant to the module:
the builtin `FileNotFoundError` (with its message), the builtin
`json.JSONDecodeError`, the module's own `SnapshotNotFound`, and the
builtin type errors (`TypeError` / `AttributeError`) raised on
schema-shaped data of the wrong type. -/
inductive Exc where
  | fileNotFoundError (msg : String)
  | jsonDecodeError
  | snapshotNotFound (msg : String)
  | typeError
deriving DecidableEq, Repr

/-- Embedding of `find_snapshot(account, target_date)`: linear search of
`list_snapshots` for the first exact date match; raises
`SnapshotNotFound` otherwise. -/
def find_snapshot (listing : List FSEntry) (account : String)
    (target_date : Date) : Except Exc String :=
  match (list_snapshots listing account).find? (fun q => q.1 == target_date) with
  | some q => Except.ok q.2
  | none => Except.error (Exc.snapshotNotFound
      ("No snapshot found for " ++ account ++ " on " ++ isoformat target_date))

/-- What `zipfile.ZipFile` finds in one `*.zip` file: either
`BadZipFile`, or a list of member names (`zf.namelist()`). -/
inductive ZipContent where
  | invalid
  | valid (entries : List String)
deriving DecidableEq, Repr

/-- One entry of the data directory, as `unpack_archives` sees it: a
regular file whose name ends in `.zip` (with what `zipfile.ZipFile`
finds in it), or a directory (with the names of the entries inside it:
for a pre-existing directory whatever is on disk, for an extracted
archive its members).  A regular file whose name does not end in
`.zip` is never opened by this stage and only its name matters (for
`dest.exists()`), so it may be embedded as a `dir` node; a regular
file whose name does end in `.zip` is always a `zipFile` node. -/
inductive FSNode where
  | zipFile (c : ZipContent)
  | dir (entries : List String)
deriving DecidableEq, Repr

/-- The data directory as a list of named entries in scan order. -/
structure DirState where
  items : List (String × FSNode)
deriving DecidableEq, Repr

/-- Whether a node is a regular zip file (on a directory,
`zipfile.ZipFile` raises an uncaught `IsADirectoryError`). -/
def isZipFileNode : FSNode → Bool
  | FSNode.zipFile _ => true
  | FSNode.dir _ => false

/-- Suffix test on strings, structural on the character lists; embeds
the name filter of the glob pattern `*.zip` (none of the names
considered starts with a dot, so glob's hidden-file rule is moot). -/
def strEndsWith (s suf : String) : Bool :=
  List.isSuffixOf suf.data s.data

/-- Embedding of `Path.stem` for a name ending in `.zip`: the name with the final
`.zip` suffix removed. -/
def zipStem (name : String) : String :=
  String.mk (name.data.take (name.data.length - 4))

/-- Embedding of `dest.exists()`: the name is some current directory entry. -/
def destExists (s : DirState) (n : String) : Bool :=
  s.items.any (fun it => it.1 == n)

/-- The outcome of one `unpack_archives` run: normal completion, or a
crash with an uncaught `IsADirectoryError` (raised when
`zipfile.ZipFile` is opened on a directory matched by
`glob("*.zip")` — only `BadZipFile` is caught).  Both carry the
directory state and the list of archives extracted (the work
performed) up to that point. -/
inductive UnpackResult where
  | ok (s : DirState) (extracted : List String)
  | error (s : DirState) (extracted : List String)
deriving DecidableEq, Repr

/-- The directory state an unpack run leaves behind, completed or not. -/
def UnpackResult.state : UnpackResult → DirState
  | UnpackResult.ok s _ => s
  | UnpackResult.error s _ => s

/-- The loop body of `unpack_archives` over the `glob("*.zip")`
snapshot: opening a directory raises an uncaught `IsADirectoryError`
and aborts the run; invalid archives are skipped with a warning, empty
archives and archives whose destination already exists are skipped;
otherwise all entries are extracted into a new directory named after
the stem and the archive is deleted. -/
def unpackGo : List (String × FSNode) → DirState → List String → UnpackResult
  | [], s, log => UnpackResult.ok s log
  | (n, node) :: rest, s, log =>
    match node with
    | FSNode.dir _ => UnpackResult.error s log
    | FSNode.zipFile ZipContent.invalid => unpackGo rest s log
    | FSNode.zipFile (ZipContent.valid es) =>
      if es.isEmpty then unpackGo rest s log
      else
        if destExists s (zipStem n) then unpackGo rest s log
        else unpackGo rest
          ⟨(s.items.filter (fun it => !(it.1 == n))) ++
            [(zipStem n, FSNode.dir es)]⟩
          (log ++ [n])

/-- Embedding of `DATA_DIR.glob("*.zip")`: every entry — file or
directory — whose name ends in `.zip`, in scan order.  The generator
is embedded as the snapshot taken when the loop starts (entries
created during a run carry `.zip`-free stems in every state the
theorems quantify over, so laziness is unobservable there). -/
def globZips (s : DirState) : List (String × FSNode) :=
  s.items.filter (fun it => strEndsWith it.1 ".zip")

/-- Embedding of `unpack_archives()` on a directory state: process every entry
matched by `glob("*.zip")` at the start of the run. -/
def unpack_archives (s : DirState) : UnpackResult :=
  unpackGo (globZips s) s []

/-- A JSON value, the embedding of what `json.load` returns. -/
inductive JsonVal where
  | null
  | bool (b : Bool)
  | num (n : Int)
  | str (s : String)
  | arr (items : List JsonVal)
  | obj (fields : List (String × JsonVal))

/-- What opening one expected file yields: the file is absent, its text
is not valid JSON (`json.JSONDecodeError`), or it parses to a value. -/
inductive FileContent where
  | absent
  | malformed
  | parsed (v : JsonVal)

/-- Embedding of `dict.get(key)` on a JSON object: the value of the first binding of
`key` (JSON objects bind each key once). -/
def getField (fields : List (String × JsonVal)) (key : String) :
    Option JsonVal :=
  (fields.find? (fun f => f.1 == key)).map (fun f => f.2)

/-- Python truthiness of a JSON value (`if value:`). -/
def truthy : JsonVal → Bool
  | JsonVal.null => false
  | JsonVal.bool b => b
  | JsonVal.num n => !(n == 0)
  | JsonVal.str s => !s.isEmpty
  | JsonVal.arr l => !l.isEmpty
  | JsonVal.obj f => !f.isEmpty

/-- Embedding of `set.add` on the duplicate-free accumulation list embedding a
Python set. -/
def pyAdd (s : List String) (x : String) : List String :=
  if x ∈ s then s else s ++ [x]

/-- The path `path / "connections" / "followers_and_following" / "followers_1.json"`. -/
def followersFilePath (path : String) : String :=
  path ++ "/connections/followers_and_following/followers_1.json"

/-- The path `path / "connections" / "followers_and_following" / "following.json"`. -/
def followingFilePath (path : String) : String :=
  path ++ "/connections/followers_and_following/following.json"

/-- Embedding of `load_followers(path)`: raise `FileNotFoundError` when the file is
absent, propagate JSON decode errors, then collect every truthy
`value` under every `string_list_data` entry into a set.  Data of a
shape other than an array of objects holding arrays of objects raises
a type error in Python; the export schema fixes `value` to a string,
and a truthy non-string `value` (which would poison the username set)
is likewise embedded as a type error. -/
def load_followers (files : String → FileContent) (path : String) :
    Except Exc (List String) :=
  match files (followersFilePath path) with
  | FileContent.absent =>
    Except.error (Exc.fileNotFoundError
      ("Missing followers file: " ++ followersFilePath path))
  | FileContent.malformed => Except.error Exc.jsonDecodeError
  | FileContent.parsed data =>
    match data with
    | JsonVal.arr items =>
      items.foldlM (fun usernames item =>
        match item with
        | JsonVal.obj fields =>
          match (getField fields "string_list_data").getD (JsonVal.arr []) with
          | JsonVal.arr string_list =>
            string_list.foldlM (fun acc entry =>
              match entry with
              | JsonVal.obj efields =>
                match getField efields "value" with
                | some value =>
                  if truthy value then
                    match value with
                    | JsonVal.str s => Except.ok (pyAdd acc s)
                    | _ => Except.error Exc.typeError
                  else Except.ok acc
                | none => Except.ok acc
              | _ => Except.error Exc.typeError) usernames
          | _ => Except.error Exc.typeError
        | _ => Except.error Exc.typeError) []
    | _ => Except.error Exc.typeError

/-- Embedding of `load_following(path)`: raise `FileNotFoundError` when the file is
absent, propagate JSON decode errors, then collect every truthy `title`
under `relationships_following` (default `[]`) into a set.  Non-object
/ non-array shapes and truthy non-string titles are embedded as type
errors as in `load_followers`. -/
def load_following (files : String → FileContent) (path : String) :
    Except Exc (List String) :=
  match files (followingFilePath path) with
  | FileContent.absent =>
    Except.error (Exc.fileNotFoundError
      ("Missing following file: " ++ followingFilePath path))
  | FileContent.malformed => Except.error Exc.jsonDecodeError
  | FileContent.parsed data =>
    match data with
    | JsonVal.obj fields =>
      match (getField fields "relationships_following").getD (JsonVal.arr []) with
      | JsonVal.arr relationships =>
        relationships.foldlM (fun usernames item =>
          match item with
          | JsonVal.obj ifields =>
            match getField ifields "title" with
            | some title =>
              if truthy title then
                match title with
                | JsonVal.str s => Except.ok (pyAdd usernames s)
                | _ => Except.error Exc.typeError
              else Except.ok usernames
            | none => Except.ok usernames
          | _ => Except.error Exc.typeError) []
      | _ => Except.error Exc.typeError
    | _ => Except.error Exc.typeError

/-- Python set difference `s - t` on the accumulation-list embedding:
the distinct elements of `s` not in `t`. -/
def setDiff (s t : List String) : List String :=
  s.dedup.filter (fun x => !(t.elem x))

/-- Embedding of `sorted(...)` on usernames: lexicographic ascending. -/
def pySorted (l : List String) : List String :=
  List.insertionSort (· ≤ ·) l

/-- Embedding of `len(s)` for a Python set embedded as a list: the number of
distinct elements. -/
def setCard (s : List String) : Nat := s.dedup.length

/-- Line 133: `gained = sorted(followers_later - followers_earlier)`. -/
def gainedList (followers_earlier followers_later : List String) : List String :=
  pySorted (setDiff followers_later followers_earlier)

/-- Line 134: `lost = sorted(followers_earlier - followers_later)`. -/
def lostList (followers_earlier followers_later : List String) : List String :=
  pySorted (setDiff followers_earlier followers_later)

/-- Line 135: `not_followed_back = sorted(following_later - followers_later)`. -/
def notFollowedBackList (followers_later following_later : List String) :
    List String :=
  pySorted (setDiff following_later followers_later)

/-- The net follower change of the report line:
`len(followers_later) - len(followers_earlier)`. -/
def netChange (followers_earlier followers_later : List String) : Int :=
  (setCard followers_later : Int) - (setCard followers_earlier : Int)

/-- Lines 138–167: the report text assembled by `summarize_changes`,
one string per `lines` entry. -/
def reportLines (account : String) (earlier later : Date)
    (followers_earlier followers_later : List String)
    (gained lost not_followed_back : List String) : List String :=
  ["Account: " ++ account,
   "Comparing " ++ isoformat earlier ++ " -> " ++ isoformat later,
   "Followers then: " ++ Nat.repr (setCard followers_earlier) ++
     " | Followers now: " ++ Nat.repr (setCard followers_later) ++
     " | Net change: " ++ Int.repr (netChange followers_earlier followers_later)]
  ++ ("\nFollowers gained:" ::
      (if gained.isEmpty then ["  None"]
       else gained.map (fun n => "  + " ++ n)))
  ++ ("\nFollowers lost:" ::
      (if lost.isEmpty then ["  None"]
       else lost.map (fun n => "  - " ++ n)))
  ++ ("\nFollowing but not followed back (latest snapshot):" ::
      (if not_followed_back.isEmpty then ["  None"]
       else not_followed_back.map (fun n => "  * " ++ n)))

/-- Line 111, `earlier, later = sorted([date_a, date_b])`: the stable
two-element sort. -/
def normPair (date_a date_b : Date) : Date × Date :=
  if dateLe date_a date_b then (date_a, date_b) else (date_b, date_a)

/-- Line 114's message (the apostrophes of the f-string are written as
character escapes). -/
def noSnapshotsMsg (account : String) : String :=
  "No snapshots found for account \x27" ++ account ++ "\x27."

/-- Line 117: the ISO dates of the account's snapshots. -/
def availableDates (listing : List FSEntry) (account : String) : List String :=
  (list_snapshots listing account).map (fun q => isoformat q.1)

/-- Lines 121/126: the message printed when a requested date resolves
to no snapshot. -/
def missingMsg (d : Date) (avail : List String) : String :=
  "Could not find snapshot for " ++ isoformat d ++ ". Available: " ++
    String.intercalate ", " avail

/-- Everything `summarize_changes` reads: the data-directory listing
and the contents of the relationship files, keyed by full path. -/
structure World where
  listing : List FSEntry
  files : String → FileContent

/-- The `lines` value of a successful run (lines 129–167): the report
built from the two follower sets and the later following set, with the
three diff lists computed as on lines 133–135. -/
def reportOf (account : String) (earlier later : Date)
    (followers_earlier followers_later following_later : List String) :
    List String :=
  reportLines account earlier later followers_earlier followers_later
    (gainedList followers_earlier followers_later)
    (lostList followers_earlier followers_later)
    (notFollowedBackList followers_later following_later)

/-- The body of `summarize_changes` after date normalization
(lines 112–170).  The result is `Except.error` exactly when a Python
exception would propagate out of the function; `Except.ok` carries the
printed lines and the return value (`none` embeds `return None`).
`SnapshotNotFound` from `find_snapshot` — the only exception it raises —
is caught and converted to a message, as in the source's
`try`/`except SnapshotNotFound` blocks. -/
def summarizeNormalized (w : World) (account : String) (earlier later : Date) :
    Except Exc (List String × Option (List String × Date × Date)) :=
  if (list_snapshots w.listing account).isEmpty then
    Except.ok ([noSnapshotsMsg account], none)
  else
    match find_snapshot w.listing account earlier with
    | Except.error _ =>
      Except.ok ([missingMsg earlier (availableDates w.listing account)], none)
    | Except.ok earlier_path =>
      match find_snapshot w.listing account later with
      | Except.error _ =>
        Except.ok ([missingMsg later (availableDates w.listing account)], none)
      | Except.ok later_path =>
        match load_followers w.files earlier_path with
        | Except.error e => Except.error e
        | Except.ok followers_earlier =>
          match load_followers w.files later_path with
          | Except.error e => Except.error e
          | Except.ok followers_later =>
            match load_following w.files later_path with
            | Except.error e => Except.error e
            | Except.ok following_later =>
              Except.ok
                (reportOf account earlier later followers_earlier
                   followers_later following_later,
                 some (reportOf account earlier later followers_earlier
                     followers_later following_later, earlier, later))

/-- Embedding of `summarize_changes(account, date_a, date_b)`: normalize the dates
(line 111), then run the body. -/
def summarize_changes (w : World) (account : String) (date_a date_b : Date) :
    Except Exc (List String × Option (List String × Date × Date)) :=
  summarizeNormalized w account (normPair date_a date_b).1 (normPair date_a date_b).2

/-- The normalized dates of a successful run that reached the report,
`none` otherwise. -/
def resultDates :
    Except Exc (List String × Option (List String × Date × Date)) →
    Option (Date × Date)
  | Except.ok (_, some (_, earlier, later)) => some (earlier, later)
  | _ => none

/-- The requested date has a matching snapshot directory: some entry of
`list_snapshots` carries exactly that date. -/
def hasSnapshot (listing : List FSEntry) (account : String) (d : Date) : Bool :=
  (list_snapshots listing account).any (fun q => q.1 == d)

/-! Concrete directory states and worlds used as inputs of the
counterexamples and witnesses. -/

/-- The data directory of the hyphenated-account scenario. -/
def janeListing : List FSEntry :=
  [⟨"instagram-jane-doe-2023-01-15-extra", true⟩]

def d15 : Date := ⟨2023, 1, 15⟩

def d16 : Date := ⟨2023, 1, 16⟩

def snap15 : String := "instagram-alice-2023-01-15-x"

def snap16 : String := "instagram-alice-2023-01-16-x"

/-- A `followers_1.json` value holding the given usernames. -/
def followersJson (names : List String) : JsonVal :=
  JsonVal.arr (names.map (fun n =>
    JsonVal.obj [("string_list_data",
      JsonVal.arr [JsonVal.obj [("value", JsonVal.str n)]])]))

/-- A `following.json` value holding the given usernames. -/
def followingJson (names : List String) : JsonVal :=
  JsonVal.obj [("relationships_following",
    JsonVal.arr (names.map (fun n => JsonVal.obj [("title", JsonVal.str n)])))]

/-- A file system holding exactly the given parsed JSON files. -/
def filesFor (entries : List (String × JsonVal)) : String → FileContent :=
  fun p =>
    match entries.find? (fun e => e.1 == p) with
    | some e => FileContent.parsed e.2
    | none => FileContent.absent

/-- One snapshot of account `alice` on 2023-01-15, with both
relationship files present and well-formed. -/
def wOne : World :=
  ⟨[⟨snap15, true⟩],
   filesFor [(followersFilePath snap15, followersJson ["alice", "bob"]),
             (followingFilePath snap15, followingJson ["bob"])]⟩

/-- Two snapshots of account `alice` (2023-01-15 and 2023-01-16), all
four relationship files present and well-formed. -/
def wTwo : World :=
  ⟨[⟨snap15, true⟩, ⟨snap16, true⟩],
   filesFor [(followersFilePath snap15, followersJson ["alice", "bob"]),
             (followingFilePath snap15, followingJson ["bob"]),
             (followersFilePath snap16, followersJson ["bob", "carol"]),
             (followingFilePath snap16, followingJson ["bob", "dave"])]⟩

/-- One snapshot of account `alice` whose relationship files are both
absent. -/
def wAbs : World :=
  ⟨[⟨snap15, true⟩], fun _ => FileContent.absent⟩

/-- Two valid archives where the first one's destination (`a.zip`) is
the second archive itself. -/
def collidingZips : DirState :=
  ⟨[("a.zip.zip", FSNode.zipFile (ZipContent.valid ["f"])),
    ("a.zip", FSNode.zipFile (ZipContent.valid ["g"]))]⟩

/-- A single ordinary archive. -/
def plainZip : DirState :=
  ⟨[("b.zip", FSNode.zipFile (ZipContent.valid ["x"]))]⟩

/-- A single archive whose stem itself ends in `.zip`. -/
def lonePackedZip : DirState :=
  ⟨[("y.zip.zip", FSNode.zipFile (ZipContent.valid ["f"]))]⟩

/-- The state `lonePackedZip` leaves behind after one unpack run: the
archive is gone and a directory named `y.zip` holds its entries. -/
def yUnpacked : DirState :=
  ⟨[("y.zip", FSNode.dir ["f"])]⟩

/-- An archive the unpack loop is sure to skip without touching the
state: an invalid archive, an empty archive, or one whose destination
name is among the current entries. -/
def skippedD (s : DirState) (z : String × FSNode) : Prop :=
  z.2 = FSNode.zipFile ZipContent.invalid ∨
  z.2 = FSNode.zipFile (ZipContent.valid []) ∨
    zipStem z.1 ∈ s.items.map Prod.fst

/-! Concrete evaluations of the model, checked by the kernel. -/

theorem eval_summarize_equal_dates :
    resultDates (summarize_changes wOne "alice" d15 d15) = some (d15, d15) := by decide

theorem eval_summarize_swapped :
    resultDates (summarize_changes wTwo "alice" d16 d15) = some (d15, d16) := by decide

theorem eval_unpack_first_run : unpack_archives collidingZips =
    UnpackResult.ok
      ⟨[("a.zip.zip", FSNode.zipFile (ZipContent.valid ["f"])),
        ("a", FSNode.dir ["g"])]⟩ ["a.zip"] := by decide

theorem eval_unpack_second_run :
    unpack_archives
      (⟨[("a.zip.zip", FSNode.zipFile (ZipContent.valid ["f"])),
        ("a", FSNode.dir ["g"])]⟩ : DirState) =
    UnpackResult.ok
      ⟨[("a", FSNode.dir ["g"]), ("a.zip", FSNode.dir ["f"])]⟩
      ["a.zip.zip"] := by decide

theorem eval_unpack_third_run_crashes :
    unpack_archives
      (⟨[("a", FSNode.dir ["g"]), ("a.zip", FSNode.dir ["f"])]⟩ : DirState) =
    UnpackResult.error
      ⟨[("a", FSNode.dir ["g"]), ("a.zip", FSNode.dir ["f"])]⟩ [] := by decide

theorem eval_report_lines : (summarize_changes wTwo "alice" d15 d16).toOption.map Prod.fst =
    some ["Account: alice", "Comparing 2023-01-15 -> 2023-01-16",
      "Followers then: 2 | Followers now: 2 | Net change: 0",
      "\nFollowers gained:", "  + carol",
      "\nFollowers lost:", "  - alice",
      "\nFollowing but not followed back (latest snapshot):", "  * dave"] := by decide

theorem eval_splitDash : splitDash "instagram-jane-doe-2023-01-15-extra" =
    ["instagram", "jane", "doe", "2023", "01", "15", "extra"] := by decide

theorem eval_parse_date_ok : parse_date "2023-01-15" = some ⟨2023, 1, 15⟩ := by decide

theorem eval_parse_date_leap : parse_date "2023-2-29" = none ∧
    parse_date "2024-2-29" = some ⟨2024, 2, 29⟩ := by decide

theorem eval_list_snapshots_sorted :
    list_snapshots [⟨"instagram-alice-2023-01-16-x", true⟩,
      ⟨"instagram-alice-2023-01-15-x", true⟩] "alice" =
      [(⟨2023, 1, 15⟩, "instagram-alice-2023-01-15-x"),
       (⟨2023, 1, 16⟩, "instagram-alice-2023-01-16-x")] := by decide

/-! Order facts about `datetime.date` comparison. -/

theorem dateLe_refl (d : Date) : dateLe d d = true := by
  simp [dateLe]

theorem dateLe_total (x y : Date) : dateLe x y = true ∨ dateLe y x = true := by
  simp only [dateLe, decide_eq_true_eq]
  omega

theorem dateLe_trans (x y z : Date) (hxy : dateLe x y = true)
    (hyz : dateLe y z = true) : dateLe x z = true := by
  simp only [dateLe, decide_eq_true_eq] at *
  omega

theorem dateLe_antisymm (x y : Date) (hxy : dateLe x y = true)
    (hyx : dateLe y x = true) : x = y := by
  cases x
  cases y
  simp only [dateLe, decide_eq_true_eq] at hxy hyx
  simp only [Date.mk.injEq]
  omega

theorem dateLt_of_le_of_ne (x y : Date) (hle : dateLe x y = true)
    (hne : x ≠ y) : dateLt x y = true := by
  cases x
  cases y
  simp only [dateLe, dateLt, decide_eq_true_eq] at *
  simp only [ne_eq, Date.mk.injEq, not_and] at hne
  omega

theorem dateLe_of_not_le (x y : Date) (h : dateLe x y = false) :
    dateLe y x = true := by
  rcases dateLe_total x y with h' | h'
  · rw [h'] at h
    cases h
  · exact h'

/-! Facts about the two-element stable sort of line 111. -/

theorem normPair_comm (a b : Date) : normPair a b = normPair b a := by
  unfold normPair
  cases hab : dateLe a b with
  | false => simp [dateLe_of_not_le a b hab]
  | true =>
    cases hba : dateLe b a with
    | false => simp
    | true =>
      have h := dateLe_antisymm a b hab hba
      subst h
      simp

theorem normPair_le (a b : Date) :
    dateLe (normPair a b).1 (normPair a b).2 = true := by
  unfold normPair
  cases hab : dateLe a b with
  | false => simpa using dateLe_of_not_le a b hab
  | true => simpa using hab

theorem normPair_lt (a b : Date) (hne : a ≠ b) :
    dateLt (normPair a b).1 (normPair a b).2 = true := by
  unfold normPair
  cases hab : dateLe a b with
  | false =>
    simpa using dateLt_of_le_of_ne b a (dateLe_of_not_le a b hab) (Ne.symm hne)
  | true => simpa using dateLt_of_le_of_ne a b hab hne

/-! Stability of the date-keyed insertion sort: filtering on one date
commutes with sorting, so equal-date entries keep their scan order. -/

theorem filter_orderedInsert_key_eq (d : Date) (x : Date × String)
    (l : List (Date × String)) (hx : x.1 = d) :
    (List.orderedInsert snapLE x l).filter (fun p => p.1 == d) =
      x :: l.filter (fun p => p.1 == d) := by
  induction l with
  | nil => simp [List.orderedInsert, hx]
  | cons y ys ih =>
    by_cases hxy : snapLE x y
    · rw [List.orderedInsert_of_le _ _ hxy]
      simp [hx]
    · have hyd : ¬(y.1 = d) := by
        intro h
        apply hxy
        unfold snapLE
        rw [hx, h]
        exact dateLe_refl d
      simp only [List.orderedInsert, if_neg hxy]
      rw [List.filter_cons, List.filter_cons]
      simp only [beq_iff_eq, hyd]
      simp only [decide_eq_true_eq, hyd, if_false, ih]

theorem filter_orderedInsert_key_ne (d : Date) (x : Date × String)
    (l : List (Date × String)) (hx : ¬(x.1 = d)) :
    (List.orderedInsert snapLE x l).filter (fun p => p.1 == d) =
      l.filter (fun p => p.1 == d) := by
  induction l with
  | nil => simp [List.orderedInsert, hx]
  | cons y ys ih =>
    by_cases hxy : snapLE x y
    · rw [List.orderedInsert_of_le _ _ hxy]
      rw [List.filter_cons]
      simp [hx]
    · simp only [List.orderedInsert, if_neg hxy]
      rw [List.filter_cons, List.filter_cons]
      by_cases hyd : y.1 = d <;> simp [hyd, ih]

theorem filter_insertionSort_key (d : Date) (l : List (Date × String)) :
    (List.insertionSort snapLE l).filter (fun p => p.1 == d) =
      l.filter (fun p => p.1 == d) := by
  induction l with
  | nil => rfl
  | cons x xs ih =>
    show (List.orderedInsert snapLE x (List.insertionSort snapLE xs)).filter
        (fun p => p.1 == d) = _
    by_cases hx : x.1 = d
    · rw [filter_orderedInsert_key_eq d x _ hx, ih, List.filter_cons]
      simp [hx]
    · rw [filter_orderedInsert_key_ne d x _ hx, ih, List.filter_cons]
      simp [hx]

/-! Facts about `find_snapshot` and `summarize_changes`. -/

theorem find_snapshot_of_not_has (listing : List FSEntry) (account : String)
    (d : Date) (h : hasSnapshot listing account d = false) :
    find_snapshot listing account d = Except.error (Exc.snapshotNotFound
      ("No snapshot found for " ++ account ++ " on " ++ isoformat d)) := by
  unfold find_snapshot
  have hnone : (list_snapshots listing account).find? (fun q => q.1 == d) = none := by
    rw [List.find?_eq_none]
    intro x hx
    unfold hasSnapshot at h
    rw [List.any_eq_false] at h
    exact h x hx
  rw [hnone]

theorem has_of_find_ok (listing : List FSEntry) (account : String) (d : Date)
    (p : String) (h : find_snapshot listing account d = Except.ok p) :
    hasSnapshot listing account d = true := by
  unfold find_snapshot at h
  cases hf : (list_snapshots listing account).find? (fun q => q.1 == d) with
  | none =>
    rw [hf] at h
    exact absurd h (by simp)
  | some q =>
    have hpq := List.find?_some hf
    unfold hasSnapshot
    rw [List.any_eq_true]
    exact ⟨q, List.mem_of_find?_eq_some hf, hpq⟩

theorem isEmpty_false_of_find_ok (listing : List FSEntry) (account : String)
    (d : Date) (p : String) (h : find_snapshot listing account d = Except.ok p) :
    (list_snapshots listing account).isEmpty = false := by
  unfold find_snapshot at h
  cases hf : (list_snapshots listing account).find? (fun q => q.1 == d) with
  | none =>
    rw [hf] at h
    exact absurd h (by simp)
  | some q =>
    have hq := List.mem_of_find?_eq_some hf
    cases hl : list_snapshots listing account with
    | nil =>
      rw [hl] at hq
      cases hq
    | cons x xs => simp

theorem summarizeNormalized_dates (w : World) (account : String)
    (e0 l0 e l : Date)
    (h : resultDates (summarizeNormalized w account e0 l0) = some (e, l)) :
    e = e0 ∧ l = l0 := by
  unfold summarizeNormalized at h
  split at h
  · simp [resultDates] at h
  · split at h
    · simp [resultDates] at h
    · split at h
      · simp [resultDates] at h
      · split at h
        · simp [resultDates] at h
        · split at h
          · simp [resultDates] at h
          · split at h
            · simp [resultDates] at h
            · simp only [resultDates, Option.some.injEq, Prod.mk.injEq] at h
              exact ⟨h.1.symm, h.2.symm⟩

/-! The unpack loop: completion on directory-free glob lists,
persistence of entries whose names do not end in `.zip`, absence of
new `.zip`-named entries, and the postcondition that every surviving
archive stays skippable. -/

theorem unpackGo_completes (L : List (String × FSNode)) (s : DirState)
    (log : List String) (hzip : ∀ z ∈ L, isZipFileNode z.2 = true) :
    ∃ s1 log1, unpackGo L s log = UnpackResult.ok s1 log1 := by
  induction L generalizing s log with
  | nil => exact ⟨s, log, rfl⟩
  | cons hd rest ih =>
    obtain ⟨n, node⟩ := hd
    have hrest : ∀ z ∈ rest, isZipFileNode z.2 = true :=
      fun z hz => hzip z (List.mem_cons_of_mem _ hz)
    cases node with
    | dir es =>
      have h0 := hzip (n, FSNode.dir es) (List.mem_cons_self _ _)
      simp [isZipFileNode] at h0
    | zipFile c =>
      cases c with
      | invalid => exact ih s log hrest
      | valid es =>
        unfold unpackGo
        by_cases hes : es.isEmpty
        · simp only [hes, if_true]
          exact ih s log hrest
        · simp only [hes, if_false]
          by_cases hex : destExists s (zipStem n)
          · simp only [hex, if_true]
            exact ih s log hrest
          · simp only [hex, if_false]
            exact ih _ _ hrest

theorem unpackGo_persist (L : List (String × FSNode)) (s : DirState)
    (log : List String)
    (hL : ∀ z ∈ L, strEndsWith z.1 ".zip" = true) :
    ∀ it ∈ s.items, strEndsWith it.1 ".zip" = false →
      it ∈ (unpackGo L s log).state.items := by
  induction L generalizing s log with
  | nil =>
    intro it hit _
    exact hit
  | cons hd rest ih =>
    obtain ⟨n, node⟩ := hd
    have hLr : ∀ z ∈ rest, strEndsWith z.1 ".zip" = true :=
      fun z hz => hL z (List.mem_cons_of_mem _ hz)
    intro it hit hnz
    cases node with
    | dir es => exact hit
    | zipFile c =>
      cases c with
      | invalid => exact ih s log hLr it hit hnz
      | valid es =>
        unfold unpackGo
        by_cases hes : es.isEmpty
        · simp only [hes, if_true]
          exact ih s log hLr it hit hnz
        · simp only [hes, if_false]
          by_cases hex : destExists s (zipStem n)
          · simp only [hex, if_true]
            exact ih s log hLr it hit hnz
          · simp only [hex, if_false]
            apply ih _ _ hLr it _ hnz
            apply List.mem_append_left
            rw [List.mem_filter]
            refine ⟨hit, ?_⟩
            have hn : strEndsWith n ".zip" = true :=
              hL (n, FSNode.zipFile (ZipContent.valid es)) (List.mem_cons_self _ _)
            have hne : it.1 ≠ n := by
              intro he
              rw [he] at hnz
              simp [hn] at hnz
            simp [hne]

theorem unpackGo_no_new_zips (L : List (String × FSNode)) (s : DirState)
    (log : List String)
    (hL : ∀ z ∈ L, strEndsWith z.1 ".zip" = true)
    (hstem : ∀ z ∈ L, strEndsWith (zipStem z.1) ".zip" = false) :
    ∀ it ∈ (unpackGo L s log).state.items, strEndsWith it.1 ".zip" = true →
      it ∈ s.items := by
  induction L generalizing s log with
  | nil =>
    intro it hit _
    exact hit
  | cons hd rest ih =>
    obtain ⟨n, node⟩ := hd
    have hLr : ∀ z ∈ rest, strEndsWith z.1 ".zip" = true :=
      fun z hz => hL z (List.mem_cons_of_mem _ hz)
    have hstemr : ∀ z ∈ rest, strEndsWith (zipStem z.1) ".zip" = false :=
      fun z hz => hstem z (List.mem_cons_of_mem _ hz)
    intro it hit hz
    cases node with
    | dir es => exact hit
    | zipFile c =>
      cases c with
      | invalid => exact ih s log hLr hstemr it hit hz
      | valid es =>
        unfold unpackGo at hit
        by_cases hes : es.isEmpty
        · simp only [hes, if_true] at hit
          exact ih s log hLr hstemr it hit hz
        · simp only [hes, if_false] at hit
          by_cases hex : destExists s (zipStem n)
          · simp only [hex, if_true] at hit
            exact ih s log hLr hstemr it hit hz
          · simp only [hex, if_false] at hit
            have hit2 := ih _ _ hLr hstemr it hit hz
            rcases List.mem_append.mp hit2 with h1 | h1
            · exact List.mem_of_mem_filter h1
            · have hzeq : it = (zipStem n, FSNode.dir es) := by
                simpa using h1
              have hs0 := hstem (n, FSNode.zipFile (ZipContent.valid es))
                (List.mem_cons_self _ _)
              rw [hzeq] at hz
              exact absurd hz (by simp [hs0])

theorem destExists_iff (s : DirState) (m : String) :
    destExists s m = true ↔ m ∈ s.items.map Prod.fst := by
  constructor
  · intro h
    unfold destExists at h
    rw [List.any_eq_true] at h
    obtain ⟨it, hit, he⟩ := h
    exact List.mem_map.mpr ⟨it, hit, beq_iff_eq.mp he⟩
  · intro h
    obtain ⟨it, hit, he⟩ := List.mem_map.mp h
    unfold destExists
    rw [List.any_eq_true]
    exact ⟨it, hit, beq_iff_eq.mpr he⟩

theorem unpackGo_post (L : List (String × FSNode)) (s : DirState)
    (log : List String)
    (hL : ∀ z ∈ L, strEndsWith z.1 ".zip" = true)
    (hstem : ∀ z ∈ L, strEndsWith (zipStem z.1) ".zip" = false)
    (hzip : ∀ z ∈ L, isZipFileNode z.2 = true) :
    ∀ z ∈ (unpackGo L s log).state.items, strEndsWith z.1 ".zip" = true →
      (z ∈ s.items ∧ z ∉ L) ∨ skippedD (unpackGo L s log).state z := by
  induction L generalizing s log with
  | nil =>
    intro z hz _
    exact Or.inl ⟨hz, List.not_mem_nil z⟩
  | cons hd rest ih =>
    obtain ⟨n, node⟩ := hd
    have hLr : ∀ z ∈ rest, strEndsWith z.1 ".zip" = true :=
      fun z hz => hL z (List.mem_cons_of_mem _ hz)
    have hstemr : ∀ z ∈ rest, strEndsWith (zipStem z.1) ".zip" = false :=
      fun z hz => hstem z (List.mem_cons_of_mem _ hz)
    have hzipr : ∀ z ∈ rest, isZipFileNode z.2 = true :=
      fun z hz => hzip z (List.mem_cons_of_mem _ hz)
    intro z hz hzn
    cases node with
    | dir es =>
      have h0 := hzip (n, FSNode.dir es) (List.mem_cons_self _ _)
      simp [isZipFileNode] at h0
    | zipFile c =>
      cases c with
      | invalid =>
        rcases ih s log hLr hstemr hzipr z hz hzn with ⟨hmem, hnr⟩ | hsk
        · by_cases hzeq : z = (n, FSNode.zipFile ZipContent.invalid)
          · exact Or.inr (Or.inl (by rw [hzeq]))
          · refine Or.inl ⟨hmem, fun hmem2 => ?_⟩
            rcases List.mem_cons.mp hmem2 with h1 | h1
            · exact hzeq h1
            · exact hnr h1
        · exact Or.inr hsk
      | valid es =>
        unfold unpackGo at hz ⊢
        by_cases hes : es.isEmpty
        · simp only [hes, if_true] at hz ⊢
          have hesnil : es = [] := by
            cases es with
            | nil => rfl
            | cons a as => simp [List.isEmpty] at hes
          rcases ih s log hLr hstemr hzipr z hz hzn with ⟨hmem, hnr⟩ | hsk
          · by_cases hzeq : z = (n, FSNode.zipFile (ZipContent.valid es))
            · refine Or.inr (Or.inr (Or.inl ?_))
              rw [hzeq, hesnil]
            · refine Or.inl ⟨hmem, fun hmem2 => ?_⟩
              rcases List.mem_cons.mp hmem2 with h1 | h1
              · exact hzeq h1
              · exact hnr h1
          · exact Or.inr hsk
        · simp only [hes, if_false] at hz ⊢
          by_cases hex : destExists s (zipStem n)
          · simp only [hex, if_true] at hz ⊢
            have hw : zipStem n ∈ (unpackGo rest s log).state.items.map Prod.fst := by
              have hmem0 := (destExists_iff s (zipStem n)).mp hex
              rcases List.mem_map.mp hmem0 with ⟨w, hwmem, hwn⟩
              have hwnz : strEndsWith w.1 ".zip" = false := by
                rw [hwn]
                exact hstem (n, FSNode.zipFile (ZipContent.valid es))
                  (List.mem_cons_self _ _)
              have hpers := unpackGo_persist rest s log hLr w hwmem hwnz
              rw [← hwn]
              exact List.mem_map_of_mem Prod.fst hpers
            rcases ih s log hLr hstemr hzipr z hz hzn with ⟨hmem, hnr⟩ | hsk
            · by_cases hzeq : z = (n, FSNode.zipFile (ZipContent.valid es))
              · refine Or.inr (Or.inr (Or.inr ?_))
                rw [hzeq]
                exact hw
              · refine Or.inl ⟨hmem, fun hmem2 => ?_⟩
                rcases List.mem_cons.mp hmem2 with h1 | h1
                · exact hzeq h1
                · exact hnr h1
            · exact Or.inr hsk
          · simp only [hex, if_false] at hz ⊢
            rcases ih _ _ hLr hstemr hzipr z hz hzn with ⟨hmem, hnr⟩ | hsk
            · rcases List.mem_append.mp hmem with h1 | h1
              · have hzs := List.mem_of_mem_filter h1
                have hzne : z.1 ≠ n := by
                  have h2 := (List.mem_filter.mp h1).2
                  simpa using h2
                refine Or.inl ⟨hzs, fun hmem2 => ?_⟩
                rcases List.mem_cons.mp hmem2 with h2 | h2
                · exact hzne (by rw [h2])
                · exact hnr h2
              · have hzeq : z = (zipStem n, FSNode.dir es) := by
                  simpa using h1
                have hs0 := hstem (n, FSNode.zipFile (ZipContent.valid es))
                  (List.mem_cons_self _ _)
                rw [hzeq] at hzn
                exact absurd hzn (by simp [hs0])
            · exact Or.inr hsk

theorem unpackGo_noop (L : List (String × FSNode)) (s : DirState)
    (log : List String)
    (h : ∀ z ∈ L, isZipFileNode z.2 = true ∧ skippedD s z) :
    unpackGo L s log = UnpackResult.ok s log := by
  induction L with
  | nil => rfl
  | cons hd rest ih =>
    obtain ⟨n, node⟩ := hd
    have hrest : ∀ z ∈ rest, isZipFileNode z.2 = true ∧ skippedD s z :=
      fun z hz => h z (List.mem_cons_of_mem _ hz)
    obtain ⟨hzf, hsk⟩ := h (n, node) (List.mem_cons_self _ _)
    cases node with
    | dir es => simp [isZipFileNode] at hzf
    | zipFile c =>
      cases c with
      | invalid => exact ih hrest
      | valid es =>
        unfold unpackGo
        by_cases hes : es.isEmpty
        · simp only [hes, if_true]
          exact ih hrest
        · simp only [hes, if_false]
          rcases hsk with hinv | hempty | hdest
          · simp at hinv
          · simp only [FSNode.zipFile.injEq, ZipContent.valid.injEq] at hempty
            rw [hempty] at hes
            simp [List.isEmpty] at hes
          · have hex : destExists s (zipStem n) = true :=
              (destExists_iff s (zipStem n)).mpr hdest
            simp only [hex, if_true]
            exact ih hrest

/-! The claims. -/

/-- C1: for the directory `instagram-jane-doe-2023-01-15-extra`,
`list_accounts` does extract the hyphen-containing account name
`jane-doe`, but `list_snapshots "jane-doe"` yields no snapshot at all:
the date components are taken at the fixed split positions 2–4, so the
string joined for parsing is `doe-2023-01`, which fails to parse, and
the directory is silently skipped.  This settles the claim's scenario
against the code. -/
theorem c1_hyphenated_account_divergence :
    list_accounts janeListing = ["jane-doe"] ∧
    list_snapshots janeListing "jane-doe" = [] ∧
    parse_date "doe-2023-01" = none := by decide

/-- C2 (amended): whenever `summarize_changes` succeeds, its normalized
dates satisfy `earlier ≤ later`, and strictly `earlier < later`
whenever the two input dates differ; with equal input dates a run can
succeed with `earlier = later`. -/
theorem c2_normalized_dates_ordered (w : World) (account : String)
    (a b e l : Date)
    (h : resultDates (summarize_changes w account a b) = some (e, l)) :
    dateLe e l = true ∧ (a ≠ b → dateLt e l = true) := by
  unfold summarize_changes at h
  obtain ⟨he, hl⟩ := summarizeNormalized_dates w account _ _ e l h
  subst he
  subst hl
  exact ⟨normPair_le a b, fun hne => normPair_lt a b hne⟩

/-- C2 witness: a successful concrete run with distinct input dates
(passed later-first) has strictly ordered normalized dates. -/
theorem c2_normalized_dates_ordered_witness :
    dateLe d15 d16 = true ∧ (d16 ≠ d15 → dateLt d15 d16 = true) :=
  c2_normalized_dates_ordered wTwo "alice" d16 d15 d15 d16 (by decide)

/-- C2 counterexample: with both input dates equal, the concrete run
succeeds and returns equal normalized dates, so the claimed strict
`earlier < later` fails. -/
theorem c2_strictness_counterexample :
    resultDates (summarize_changes wOne "alice" d15 d15) = some (d15, d15) ∧
    dateLt d15 d15 = false := by decide

/-- C4: `summarize_changes` produces identical output however its two
dates are ordered. -/
theorem c4_order_independent (w : World) (account : String) (a b : Date) :
    summarize_changes w account a b = summarize_changes w account b a := by
  unfold summarize_changes
  rw [normPair_comm]

/-- C5: for any two follower sets, the gained and lost lists are
disjoint from each other and each is sorted lexicographically
ascending. -/
theorem c5_gained_lost_disjoint_sorted (fe fl : List String) :
    (∀ x, x ∈ gainedList fe fl → x ∉ lostList fe fl) ∧
    List.Sorted (· ≤ ·) (gainedList fe fl) ∧
    List.Sorted (· ≤ ·) (lostList fe fl) := by
  refine ⟨?_, ?_, ?_⟩
  · intro x hg hl
    have hg' : x ∈ setDiff fl fe := by
      unfold gainedList pySorted at hg
      exact (List.Perm.mem_iff (List.perm_insertionSort _ _)).mp hg
    have hl' : x ∈ setDiff fe fl := by
      unfold lostList pySorted at hl
      exact (List.Perm.mem_iff (List.perm_insertionSort _ _)).mp hl
    unfold setDiff at hg' hl'
    have hgf := List.mem_filter.mp hg'
    have hlf := List.mem_filter.mp hl'
    have hxfe : x ∈ fe := List.mem_dedup.mp hlf.1
    have hnfe : ¬ x ∈ fe := by simpa using hgf.2
    exact hnfe hxfe
  · unfold gainedList pySorted
    exact List.sorted_insertionSort _ _
  · unfold lostList pySorted
    exact List.sorted_insertionSort _ _

/-- C5 witness: at the concrete sets, `carol` is gained and indeed not
lost. -/
theorem c5_gained_lost_disjoint_sorted_witness :
    "carol" ∉ lostList ["alice", "bob"] ["bob", "carol"] :=
  (c5_gained_lost_disjoint_sorted ["alice", "bob"] ["bob", "carol"]).1
    "carol" (by decide)

/-- C3 (amended): an absent relationship file makes `load_followers` /
`load_following` fail with the builtin `FileNotFoundError` — the
general file-not-found type, not a distinct one — whose message names
the missing relationship file; the condition is distinct from JSON
decode errors, and it propagates out of `summarize_changes` to the
top-level caller. -/
theorem c3_missing_file_behaviour (w : World) (account : String)
    (a b : Date) (pe pl : String)
    (hfe : find_snapshot w.listing account (normPair a b).1 = Except.ok pe)
    (hfl : find_snapshot w.listing account (normPair a b).2 = Except.ok pl)
    (habs : w.files (followersFilePath pe) = FileContent.absent) :
    load_followers w.files pe = Except.error
      (Exc.fileNotFoundError ("Missing followers file: " ++ followersFilePath pe)) ∧
    summarize_changes w account a b = Except.error
      (Exc.fileNotFoundError ("Missing followers file: " ++ followersFilePath pe)) ∧
    (∀ m, Exc.fileNotFoundError m ≠ Exc.jsonDecodeError) ∧
    (∀ q, w.files (followingFilePath q) = FileContent.absent →
      load_following w.files q = Except.error
        (Exc.fileNotFoundError
          ("Missing following file: " ++ followingFilePath q))) := by
  have hload : load_followers w.files pe = Except.error
      (Exc.fileNotFoundError ("Missing followers file: " ++ followersFilePath pe)) := by
    unfold load_followers
    rw [habs]
  refine ⟨hload, ?_, ?_, ?_⟩
  · have hE := isEmpty_false_of_find_ok w.listing account (normPair a b).1 pe hfe
    unfold summarize_changes summarizeNormalized
    simp only [hE, Bool.false_eq_true, if_false, hfe, hfl, hload]
  · intro m
    simp
  · intro q hq
    unfold load_following
    rw [hq]

/-- C3 witness: in the concrete world whose relationship files are all
absent, the missing-followers `FileNotFoundError` propagates out of
`summarize_changes`. -/
theorem c3_missing_file_behaviour_witness :
    summarize_changes wAbs "alice" d15 d15 = Except.error
      (Exc.fileNotFoundError
        ("Missing followers file: " ++ followersFilePath snap15)) :=
  (c3_missing_file_behaviour wAbs "alice" d15 d15 snap15 snap15 rfl rfl rfl).2.1

/-- C3 counterexample: the condition raised for an absent followers
file IS the general `FileNotFoundError`, refuting the claimed
distinctness of the missing-relationship-file condition from the
general file-not-found condition. -/
theorem c3_distinct_type_counterexample :
    ¬ (∀ e, load_followers wAbs.files snap15 = Except.error e →
        ∀ m, e ≠ Exc.fileNotFoundError m) := by
  intro h
  exact h
    (Exc.fileNotFoundError ("Missing followers file: " ++ followersFilePath snap15))
    rfl
    ("Missing followers file: " ++ followersFilePath snap15)
    rfl

/-- C6: if either requested date has no matching snapshot while the
account has at least one, `summarize_changes` returns `ok` with a
single message listing the account's available ISO dates and a `none`
result — the `SnapshotNotFound` condition never escapes. -/
theorem c6_missing_date_reported (w : World) (account : String) (a b : Date)
    (hne : (list_snapshots w.listing account).isEmpty = false)
    (hmiss : hasSnapshot w.listing account a = false ∨
      hasSnapshot w.listing account b = false) :
    summarize_changes w account a b = Except.ok
      ([missingMsg (normPair a b).1 (availableDates w.listing account)], none) ∨
    summarize_changes w account a b = Except.ok
      ([missingMsg (normPair a b).2 (availableDates w.listing account)], none) := by
  have hmiss' : hasSnapshot w.listing account (normPair a b).1 = false ∨
      hasSnapshot w.listing account (normPair a b).2 = false := by
    unfold normPair
    cases hab : dateLe a b with
    | true => simpa using hmiss
    | false => simpa using hmiss.symm
  unfold summarize_changes summarizeNormalized
  cases hfe : find_snapshot w.listing account (normPair a b).1 with
  | error m =>
    left
    simp only [hne, Bool.false_eq_true, if_false, hfe]
  | ok pe =>
    right
    have hhase := has_of_find_ok _ _ _ _ hfe
    have hmissl : hasSnapshot w.listing account (normPair a b).2 = false := by
      rcases hmiss' with h' | h'
      · rw [hhase] at h'
        cases h'
      · exact h'
    have hflm := find_snapshot_of_not_has _ _ _ hmissl
    simp only [hne, Bool.false_eq_true, if_false, hfe, hflm]

/-- C6 witness: requesting 2023-01-16 against the world holding only a
2023-01-15 snapshot yields the message with the available dates and a
`none` result. -/
theorem c6_missing_date_reported_witness :
    summarize_changes wOne "alice" d15 d16 = Except.ok
      ([missingMsg (normPair d15 d16).1 (availableDates wOne.listing "alice")], none) ∨
    summarize_changes wOne "alice" d15 d16 = Except.ok
      ([missingMsg (normPair d15 d16).2 (availableDates wOne.listing "alice")], none) :=
  c6_missing_date_reported wOne "alice" d15 d16 (by decide) (Or.inr (by decide))

/-- C7: `list_snapshots` is sorted ascending by date, with equal-date
entries kept in parse (scan) order — the filter on any single date
equals the filter of the unsorted candidate list — and `list_accounts`
is sorted lexicographically with no duplicates. -/
theorem c7_listing_order (listing : List FSEntry) (account : String) :
    List.Sorted snapLE (list_snapshots listing account) ∧
    (∀ d : Date, (list_snapshots listing account).filter (fun p => p.1 == d) =
      (snapshotCandidates listing account).filter (fun p => p.1 == d)) ∧
    List.Sorted (· ≤ ·) (list_accounts listing) ∧
    (list_accounts listing).Nodup := by
  refine ⟨?_, ?_, ?_, ?_⟩
  · unfold list_snapshots
    exact List.sorted_insertionSort _ _
  · intro d
    unfold list_snapshots
    exact filter_insertionSort_key d _
  · unfold list_accounts
    exact List.sorted_insertionSort _ _
  · unfold list_accounts
    exact (List.Perm.nodup_iff (List.perm_insertionSort _ _)).mpr
      (List.nodup_dedup _)

/-- C8 (amended): `unpack_archives` is idempotent on every starting
state in which every entry matched by `glob("*.zip")` is a regular zip
file — the glob also matches directories, on which `zipfile.ZipFile`
raises an uncaught `IsADirectoryError` — and no such file's stem
itself ends in `.zip` (no `X.zip.zip` names: extracting one creates a
directory the next run's glob matches, and its stem can also name
another archive).  Then the first run completes without error, and the
second run leaves the state unchanged, extracts nothing and raises no
error. -/
theorem c8_unpack_idempotent (s : DirState)
    (h1 : ∀ it ∈ s.items, strEndsWith it.1 ".zip" = true →
      isZipFileNode it.2 = true)
    (h2 : ∀ it ∈ s.items, strEndsWith it.1 ".zip" = true →
      strEndsWith (zipStem it.1) ".zip" = false) :
    ∃ s1 log1, unpack_archives s = UnpackResult.ok s1 log1 ∧
      unpack_archives s1 = UnpackResult.ok s1 [] := by
  have hL0 : ∀ z ∈ globZips s, strEndsWith z.1 ".zip" = true :=
    fun z hz => (List.mem_filter.mp hz).2
  have hmem0 : ∀ z ∈ globZips s, z ∈ s.items :=
    fun z hz => (List.mem_filter.mp hz).1
  have hzip0 : ∀ z ∈ globZips s, isZipFileNode z.2 = true :=
    fun z hz => h1 z (hmem0 z hz) (hL0 z hz)
  have hstem0 : ∀ z ∈ globZips s, strEndsWith (zipStem z.1) ".zip" = false :=
    fun z hz => h2 z (hmem0 z hz) (hL0 z hz)
  obtain ⟨s1, log1, hrun⟩ := unpackGo_completes (globZips s) s [] hzip0
  refine ⟨s1, log1, hrun, ?_⟩
  have hstate : (unpackGo (globZips s) s []).state = s1 := by
    rw [hrun]
    rfl
  have hnoop : ∀ z ∈ globZips s1, isZipFileNode z.2 = true ∧ skippedD s1 z := by
    intro z hz
    have hzmem : z ∈ s1.items := (List.mem_filter.mp hz).1
    have hzname : strEndsWith z.1 ".zip" = true := (List.mem_filter.mp hz).2
    have hzmem1 : z ∈ (unpackGo (globZips s) s []).state.items := by
      rw [hstate]
      exact hzmem
    have hzorig : z ∈ s.items :=
      unpackGo_no_new_zips (globZips s) s [] hL0 hstem0 z hzmem1 hzname
    refine ⟨h1 z hzorig hzname, ?_⟩
    rcases unpackGo_post (globZips s) s [] hL0 hstem0 hzip0 z hzmem1 hzname with
      ⟨hmem, hnotL⟩ | hsk
    · exact absurd (List.mem_filter.mpr ⟨hmem, hzname⟩) hnotL
    · rw [hstate] at hsk
      exact hsk
  unfold unpack_archives
  exact unpackGo_noop (globZips s1) s1 [] hnoop

/-- C8 witness: a single ordinary archive is extracted once; the second
run changes nothing, extracts nothing and raises no error. -/
theorem c8_unpack_idempotent_witness :
    ∃ s1 log1, unpack_archives plainZip = UnpackResult.ok s1 log1 ∧
      unpack_archives s1 = UnpackResult.ok s1 [] :=
  c8_unpack_idempotent plainZip (by decide) (by decide)

/-- C8 counterexample: a lone archive `y.zip.zip` is extracted by the
first run into a directory named `y.zip`; the second run's
`glob("*.zip")` matches that directory and `zipfile.ZipFile` raises an
uncaught `IsADirectoryError`, so running the step twice errors and is
not idempotent. -/
theorem c8_unpack_idempotent_counterexample :
    unpack_archives lonePackedZip = UnpackResult.ok yUnpacked ["y.zip.zip"] ∧
    unpack_archives yUnpacked = UnpackResult.error yUnpacked [] := by decide

/-- C9: the concrete diff scenario: gained `carol`, lost `alice`, not
followed back `dave`, net change 0. -/
theorem c9_concrete_diff :
    gainedList ["alice", "bob"] ["bob", "carol"] = ["carol"] ∧
    lostList ["alice", "bob"] ["bob", "carol"] = ["alice"] ∧
    notFollowedBackList ["bob", "carol"] ["bob", "dave"] = ["dave"] ∧
    netChange ["alice", "bob"] ["bob", "carol"] = 0 := by decide

/-- C10: the not-followed-back list is disjoint from the later follower
set, hence from the gained list and from the retained followers. -/
theorem c10_not_followed_back_disjoint (fe fl fo : List String) :
    (∀ x, x ∈ notFollowedBackList fl fo → x ∉ fl) ∧
    (∀ x, x ∈ notFollowedBackList fl fo → x ∉ gainedList fe fl) ∧
    (∀ x, x ∈ notFollowedBackList fl fo → ¬(x ∈ fe ∧ x ∈ fl)) := by
  have hnfb : ∀ x, x ∈ notFollowedBackList fl fo → x ∉ fl := by
    intro x hx
    have hx' : x ∈ setDiff fo fl := by
      unfold notFollowedBackList pySorted at hx
      exact (List.Perm.mem_iff (List.perm_insertionSort _ _)).mp hx
    unfold setDiff at hx'
    have hxf := List.mem_filter.mp hx'
    simpa using hxf.2
  refine ⟨hnfb, ?_, ?_⟩
  · intro x hx hg
    have hg' : x ∈ setDiff fl fe := by
      unfold gainedList pySorted at hg
      exact (List.Perm.mem_iff (List.perm_insertionSort _ _)).mp hg
    unfold setDiff at hg'
    have hxfl : x ∈ fl := List.mem_dedup.mp (List.mem_filter.mp hg').1
    exact hnfb x hx hxfl
  · intro x hx hfefl
    exact hnfb x hx hfefl.2

/-- C10 witness: at the concrete sets, `dave` is not followed back and
indeed not among the later followers. -/
theorem c10_not_followed_back_disjoint_witness :
    "dave" ∉ ["bob", "carol"] :=
  (c10_not_followed_back_disjoint ["alice", "bob"] ["bob", "carol"]
    ["bob", "dave"]).1 "dave" (by decide)
